import Mathlib

/-!
# Tenant resolution: Domain Resolver and Tenant Context Propagator

A shallow embedding of

* `server/tenant-mapper/main.go` : `tenantMapperHandler`
* `server/middleware/tenancy_echo.go` : `TenancyMiddlewareEcho`, `GetTenantIDEcho`,
  `MustGetTenantIDEcho`

Go strings are modelled by `String`; Go's `len` is the number of bytes of the UTF-8
encoding.  Go functions that mutate their arguments (`http.ResponseWriter`,
`echo.Context`) become functions returning the new value.  Effects on the outside
world (keys sent to the store, log lines, whatever the wrapped handler does) are
threaded through an explicit state.
-/

set_option autoImplicit false

namespace TenantInfra

/-! ## Go strings -/

/-- Go `len(s)` for a string: the number of bytes of `s`. -/
def len (s : String) : Nat := s.utf8ByteSize

/-! ## `net/http` headers -/

/-- The bytes `textproto` accepts in a header field name (RFC 7230 token bytes). -/
def validHeaderFieldByte (c : Char) : Bool :=
  c.isAlphanum || "!#$%&'*+-.^_`|~".data.contains c

/-- The canonicalisation loop of `textproto`: the first letter and every letter after
a hyphen are upper case, the others lower case. -/
def canonicalBytes : Bool → List Char → List Char
  | _, [] => []
  | upper, c :: cs =>
    let c1 := if upper then c.toUpper else c.toLower
    c1 :: canonicalBytes (c1 == '-') cs

/-- Go `textproto.CanonicalMIMEHeaderKey`: a name holding a byte that is not a token byte
is returned unchanged. -/
def CanonicalMIMEHeaderKey (s : String) : String :=
  if s.data.all validHeaderFieldByte then String.mk (canonicalBytes true s.data) else s

/-- Go `http.Header`, a `map[string][]string` keyed by canonical names, as an association
list in which the first entry of a key is the one in force. -/
structure Header where
  entries : List (String × List String)
deriving DecidableEq, Repr

namespace Header

/-- The header map without any entry. -/
def empty : Header := ⟨[]⟩

/-- Go `Header.Values`: all values of the canonicalised key, none when it is absent. -/
def Values (h : Header) (key : String) : List String :=
  (h.entries.lookup (CanonicalMIMEHeaderKey key)).getD []

/-- Go `Header.Get`: the first value of the canonicalised key, `""` when there is none. -/
def Get (h : Header) (key : String) : String :=
  match h.Values key with
  | [] => ""
  | v :: _ => v

/-- Go `Header.Del`: removes the canonicalised key. -/
def Del (h : Header) (key : String) : Header :=
  ⟨h.entries.filter (fun e => e.1 != CanonicalMIMEHeaderKey key)⟩

/-- Go `Header.Set`: the canonicalised key now holds the single value `value`. -/
def Set (h : Header) (key value : String) : Header :=
  ⟨(CanonicalMIMEHeaderKey key, [value]) :: (h.Del key).entries⟩

end Header

/-! ## Requests, request contexts and response writers -/

/-- A Go `interface{}` value as far as the code inspects it: `nil`, a `string`, or a
value of some other dynamic type. -/
inductive Value where
  | nil
  | str (s : String)
  | other (tag : Nat)
deriving DecidableEq, Repr

/-- Go `*http.Request`: its header map, its `Host` field, and the values of its
`context.Context` (newest first; a key of a string kind is modelled by its string). -/
structure Request where
  Header : TenantInfra.Header
  Host : String
  ctx : List (String × Value)
deriving DecidableEq, Repr

/-- Go `context.WithValue` on the values of a context. -/
def WithValue (parent : List (String × Value)) (key : String) (val : Value) :
    List (String × Value) :=
  (key, val) :: parent

/-- Go `Request.WithContext`. -/
def Request.WithContext (r : Request) (ctx : List (String × Value)) : Request :=
  { r with ctx := ctx }

/-- Go `http.ResponseWriter`: the header map, the status code once it is written, and the
body written so far. -/
structure ResponseWriter where
  header : Header
  status : Option Nat
  body : String
deriving DecidableEq, Repr

namespace ResponseWriter

/-- The writer the server hands to a handler: nothing set, nothing written. -/
def fresh : ResponseWriter := ⟨Header.empty, none, ""⟩

/-- Go `ResponseWriter.WriteHeader`: the first call fixes the status code. -/
def WriteHeader (w : ResponseWriter) (code : Nat) : ResponseWriter :=
  match w.status with
  | none => { w with status := some code }
  | some _ => w

/-- Go `ResponseWriter.Write`: writes status 200 first when no status was written. -/
def Write (w : ResponseWriter) (data : String) : ResponseWriter :=
  let w := w.WriteHeader 200
  { w with body := w.body ++ data }

end ResponseWriter

def StatusOK : Nat := 200
def StatusBadRequest : Nat := 400
def StatusUnauthorized : Nat := 401
def StatusInternalServerError : Nat := 500

/-- Go `http.Error`: a plain-text reply with the given status code and the message
followed by a newline. -/
def http.Error (w : ResponseWriter) (error : String) (code : Nat) : ResponseWriter :=
  let h := w.header.Del "Content-Length"
  let h := h.Set "Content-Type" "text/plain; charset=utf-8"
  let h := h.Set "X-Content-Type-Options" "nosniff"
  let w := { w with header := h }
  let w := w.WriteHeader code
  w.Write (error ++ "\n")

/-! ## The key-value store and the effects of the resolver -/

/-- What `redisClient.Get(ctx, key).Result()` returns: a value with a `nil` error, the
error `redis.Nil` (the key is absent), or another error. -/
inductive RedisResult where
  | ok (val : String)
  | Nil
  | err (msg : String)
deriving DecidableEq, Repr

/-- The store as the handler sees it: the answer to `GET key`. -/
abbrev RedisClient := String → RedisResult

/-- The effects of the resolver outside the response: the keys sent to the store with
`GET` and the lines given to the logger, oldest first. -/
structure World where
  redisGets : List String
  logs : List String
deriving DecidableEq, Repr

/-- Go `log.Printf` with the already formatted line. -/
def World.Printf (s : World) (line : String) : World :=
  { s with logs := s.logs ++ [line] }

/-- The call `redisClient.Get(ctx, key).Result()`: one `GET` on the store. -/
def RedisClient.Get (redisClient : RedisClient) (key : String) (s : World) :
    RedisResult × World :=
  (redisClient key, { s with redisGets := s.redisGets ++ [key] })

/-! ## `tenantMapperHandler` (tenant-mapper/main.go) -/

/-- The handler `tenantMapperHandler` of main.go: resolves the domain to a tenant ID. -/
def tenantMapperHandler (redisClient : RedisClient) (w : ResponseWriter) (r : Request)
    (s : World) : ResponseWriter × World :=
  let originalHost := r.Header.Get "X-Original-Host"
  let originalHost :=
    if originalHost = "" then r.Header.Get "X-Forwarded-Host" else originalHost
  let originalHost := if originalHost = "" then r.Host else originalHost
  if originalHost = "" then
    let s := s.Printf "No host header found in request"
    (http.Error w "No host header found" StatusBadRequest, s)
  else
    let s := s.Printf ("Resolving tenant for domain: " ++ originalHost)
    let redisKey := "domain:" ++ originalHost
    match redisClient.Get redisKey s with
    | (RedisResult.Nil, s) =>
      let s := s.Printf ("No tenant mapping found for domain: " ++ originalHost)
      (http.Error w "Tenant not found for domain" StatusUnauthorized, s)
    | (RedisResult.err e, s) =>
      let s := s.Printf ("Redis error for domain " ++ originalHost ++ ": " ++ e)
      (http.Error w "Internal server error" StatusInternalServerError, s)
    | (RedisResult.ok tenantID, s) =>
      let w := { w with header := w.header.Set "X-Tenant-ID" tenantID }
      let s := s.Printf ("Resolved domain " ++ originalHost ++ " to tenant: " ++ tenantID)
      (w.WriteHeader StatusOK, s)

/-- The resolution of one request by the server: the handler on a fresh response writer
and a world without effects. -/
def resolve (redisClient : RedisClient) (r : Request) : ResponseWriter × World :=
  tenantMapperHandler redisClient ResponseWriter.fresh r ⟨[], []⟩

/-- The host the specification selects: the first non-empty value among the
`X-Original-Host` header, the `X-Forwarded-Host` header and the request's own `Host`,
in this order; `""` when all three are empty. -/
def firstNonEmptyHost (r : Request) : String :=
  ([r.Header.Get "X-Original-Host", r.Header.Get "X-Forwarded-Host", r.Host].find?
    (fun h => h ≠ "")).getD ""

/-! ## The Echo request scope -/

/-- The response `c.JSON(code, body)` sends: the status code and the JSON object, a map
from field names to strings (listed in the order of the source). -/
structure JSONResponse where
  status : Nat
  body : List (String × String)
deriving DecidableEq, Repr

/-- Go `echo.Context`: the request, the store of `c.Set` and `c.Get` (a
`map[string]interface{}`, first entry of a key in force), and the response sent so far. -/
structure Context where
  request : Request
  store : List (String × Value)
  response : Option JSONResponse
deriving DecidableEq, Repr

/-- What a call of a handler ends in: it returns its `error` (`none` is `nil`), or it
panics with a value; a panic unwinds through every caller that has no `recover`. -/
inductive Outcome where
  | returned (err : Option String)
  | panicked (v : String)
deriving DecidableEq, Repr

/-- What a call of a Go function with a result ends in: the result, or a panic. -/
inductive GoResult (α : Type) where
  | ret (a : α)
  | panic (v : String)
deriving DecidableEq, Repr

namespace Context

/-- Go `c.Request()`. -/
def Request (c : Context) : TenantInfra.Request := c.request

/-- Go `c.SetRequest(r)`. -/
def SetRequest (c : Context) (r : TenantInfra.Request) : Context :=
  { c with request := r }

/-- Go `c.Set(key, val)`. -/
def Set (c : Context) (key : String) (val : Value) : Context :=
  { c with store := (key, val) :: c.store.filter (fun e => e.1 != key) }

/-- Go `c.Get(key)`: `nil` when the key is not in the store. -/
def Get (c : Context) (key : String) : Value :=
  (c.store.lookup key).getD Value.nil

/-- Go `c.JSON(code, body)`: sends the JSON response and returns a `nil` error. -/
def JSON (c : Context) (code : Nat) (body : List (String × String)) : Outcome × Context :=
  (Outcome.returned none, { c with response := some ⟨code, body⟩ })

end Context

/-- Go `echo.HandlerFunc`, `func(c echo.Context) error`: from the context and the state
of the world outside it to the outcome, the context as the call leaves it, and the new
state of the world. -/
abbrev HandlerFunc (σ : Type) := Context → σ → Outcome × Context × σ

/-! ## `tenancy_echo.go` -/

/-- Modelled from the spec: the constant `TenantIDHeader`, declared outside the two
source files; the propagator reads the `X-Tenant-ID` header. -/
def TenantIDHeader : String := "X-Tenant-ID"

/-- The middleware `TenancyMiddlewareEcho` of tenancy_echo.go, applied to `next`.  The
constant `TenantIDKey` is declared outside the two source files and is a parameter
(`string(TenantIDKey)` is its string). -/
def TenancyMiddlewareEcho {σ : Type} (TenantIDKey : String) (next : HandlerFunc σ) :
    HandlerFunc σ := fun c s =>
  let tenantID := c.Request.Header.Get TenantIDHeader
  if tenantID = "" then
    let (o, c) := c.JSON StatusBadRequest
      [("error", "Missing tenant identifier"),
       ("message", "X-Tenant-ID header is required for all tenant operations"),
       ("code", "TENANT_ID_REQUIRED")]
    (o, c, s)
  else if len tenantID < 3 ∨ len tenantID > 128 then
    let (o, c) := c.JSON StatusBadRequest
      [("error", "Invalid tenant identifier"),
       ("message", "X-Tenant-ID must be between 3 and 128 characters"),
       ("code", "INVALID_TENANT_ID")]
    (o, c, s)
  else
    let c := c.Set TenantIDKey (Value.str tenantID)
    let ctx := WithValue c.Request.ctx TenantIDKey (Value.str tenantID)
    let c := c.SetRequest (c.Request.WithContext ctx)
    next c s

/-- The accessor `GetTenantIDEcho` of tenancy_echo.go: the stored string, `""` when the
store holds `nil` or a value that is not a string under the key. -/
def GetTenantIDEcho (TenantIDKey : String) (c : Context) : String :=
  match c.Get TenantIDKey with
  | Value.nil => ""
  | Value.str tid => tid
  | Value.other _ => ""

/-- The accessor `MustGetTenantIDEcho` of tenancy_echo.go: panics when `GetTenantIDEcho`
returns `""`. -/
def MustGetTenantIDEcho (TenantIDKey : String) (c : Context) : GoResult String :=
  let tenantID := GetTenantIDEcho TenantIDKey c
  if tenantID = "" then
    GoResult.panic "tenant ID not found in context - ensure TenancyMiddlewareEcho is applied"
  else
    GoResult.ret tenantID

/-! ## Observation devices used by the statements -/

/-- A call probe around a handler: the wrapped handler behaves as `next` and appends the
context it is invoked on to a record of invocations kept in the world. -/
def probe {σ : Type} (next : HandlerFunc σ) : HandlerFunc (σ × List Context) :=
  fun c st =>
    match next c st.1 with
    | (o, c1, s1) => (o, c1, (s1, st.2 ++ [c]))

/-- The context on which the middleware invokes `next` for the header value
`tenantID`: the identifier is in the Echo store and in the request context. -/
def withTenant (TenantIDKey : String) (c : Context) (tenantID : String) : Context :=
  let c := c.Set TenantIDKey (Value.str tenantID)
  c.SetRequest (c.Request.WithContext (WithValue c.Request.ctx TenantIDKey (Value.str tenantID)))

/-- Modelled from the spec: the edge proxy between the two components, which is not part
of the source; the `X-Tenant-ID` header of the resolver's response is copied onto the
request sent on to the application server. -/
def proxyCopyTenantHeader (w : ResponseWriter) (r : Request) : Request :=
  { r with Header := r.Header.Set "X-Tenant-ID" (w.header.Get "X-Tenant-ID") }

/-- A handler that reads the identifier with `MustGetTenantIDEcho` and has no `recover`:
a panic of the accessor is the outcome of the handler, otherwise it continues with `k`. -/
def handlerWithMustGet {σ : Type} (TenantIDKey : String) (k : String → HandlerFunc σ) :
    HandlerFunc σ := fun c s =>
  match MustGetTenantIDEcho TenantIDKey c with
  | GoResult.ret tenantID => k tenantID c s
  | GoResult.panic v => (Outcome.panicked v, c, s)


/-! ## Concrete requests, stores, contexts and handlers -/

/-- A request with the three host values `a.example.com`, `b.example.com` and
`c.example.com`, in the order of priority. -/
def reqABC : Request :=
  ⟨⟨[("X-Original-Host", ["a.example.com"]), ("X-Forwarded-Host", ["b.example.com"])]⟩,
    "c.example.com", []⟩

/-- A request with `X-Original-Host: shop.example.com` and its own host `edge.internal`. -/
def reqShop : Request :=
  ⟨⟨[("X-Original-Host", ["shop.example.com"])]⟩, "edge.internal", []⟩

/-- A request without any host value. -/
def reqNoHost : Request := ⟨⟨[]⟩, "", []⟩

/-- A reachable store with the given mappings and no other key. -/
def storeOf (m : List (String × String)) : RedisClient := fun key =>
  match m.lookup key with
  | some v => RedisResult.ok v
  | none => RedisResult.Nil

/-- A store that answers every `GET` with a connection error. -/
def storeDown : RedisClient := fun _ => RedisResult.err "dial tcp: connection refused"

/-- The body of the rejection of a missing header. -/
def missingBody : List (String × String) :=
  [("error", "Missing tenant identifier"),
   ("message", "X-Tenant-ID header is required for all tenant operations"),
   ("code", "TENANT_ID_REQUIRED")]

/-- The body of the rejection of a header of the wrong length. -/
def invalidBody : List (String × String) :=
  [("error", "Invalid tenant identifier"),
   ("message", "X-Tenant-ID must be between 3 and 128 characters"),
   ("code", "INVALID_TENANT_ID")]

/-- An Echo context of a request whose `X-Tenant-ID` header has the value `v`, with an
empty store and no response sent. -/
def ctxWithTenantHeader (v : String) : Context :=
  ⟨⟨⟨[("X-Tenant-Id", [v])]⟩, "app.internal", []⟩, [], none⟩

/-- An Echo context of a request without headers, with an empty store. -/
def ctxNoHeader : Context := ⟨⟨⟨[]⟩, "app.internal", []⟩, [], none⟩

/-- A final handler that returns `nil` and changes nothing. -/
def okHandler : HandlerFunc Unit := fun c s => (Outcome.returned none, c, s)

/-- The string of `n` letters `a`. -/
def letters (n : Nat) : String := String.mk (List.replicate n (Char.ofNat 97))

/-! ## Auxiliary facts -/

theorem firstNonEmptyHost_eq (r : Request) :
    firstNonEmptyHost r =
      (if r.Header.Get "X-Original-Host" ≠ "" then r.Header.Get "X-Original-Host"
       else if r.Header.Get "X-Forwarded-Host" ≠ "" then r.Header.Get "X-Forwarded-Host"
       else r.Host) := by
  unfold firstNonEmptyHost
  by_cases h1 : r.Header.Get "X-Original-Host" = ""
  · by_cases h2 : r.Header.Get "X-Forwarded-Host" = ""
    · by_cases h3 : r.Host = ""
      · simp [List.find?, h1, h2, h3]
      · simp [List.find?, h1, h2, h3]
    · simp [List.find?, h1, h2]
  · simp [List.find?, h1]

/-- The handler in terms of the selected host. -/
theorem tenantMapperHandler_eq (redisClient : RedisClient) (w : ResponseWriter)
    (r : Request) (s : World) :
    tenantMapperHandler redisClient w r s =
      (if firstNonEmptyHost r = "" then
        (http.Error w "No host header found" StatusBadRequest,
          s.Printf "No host header found in request")
      else
        let s1 : World :=
          { (s.Printf ("Resolving tenant for domain: " ++ firstNonEmptyHost r)) with
            redisGets := s.redisGets ++ ["domain:" ++ firstNonEmptyHost r] }
        match redisClient ("domain:" ++ firstNonEmptyHost r) with
        | RedisResult.Nil =>
          (http.Error w "Tenant not found for domain" StatusUnauthorized,
            s1.Printf ("No tenant mapping found for domain: " ++ firstNonEmptyHost r))
        | RedisResult.err e =>
          (http.Error w "Internal server error" StatusInternalServerError,
            s1.Printf ("Redis error for domain " ++ firstNonEmptyHost r ++ ": " ++ e))
        | RedisResult.ok tenantID =>
          (({ w with header := w.header.Set "X-Tenant-ID" tenantID } :
              ResponseWriter).WriteHeader StatusOK,
            s1.Printf ("Resolved domain " ++ firstNonEmptyHost r ++ " to tenant: "
              ++ tenantID))) := by
  rw [firstNonEmptyHost_eq]
  unfold tenantMapperHandler RedisClient.Get
  by_cases h1 : r.Header.Get "X-Original-Host" = ""
  · by_cases h2 : r.Header.Get "X-Forwarded-Host" = ""
    · by_cases h3 : r.Host = ""
      · simp [h1, h2, h3]
      · simp only [h1, h2, h3, if_true, if_false, ne_eq, not_true_eq_false, not_false_eq_true]
        cases redisClient ("domain:" ++ r.Host) <;> rfl
    · simp only [h1, h2, if_true, if_false, ne_eq, not_true_eq_false, not_false_eq_true]
      cases redisClient ("domain:" ++ r.Header.Get "X-Forwarded-Host") <;> rfl
  · simp only [h1, if_true, if_false, ne_eq, not_true_eq_false, not_false_eq_true]
    cases redisClient ("domain:" ++ r.Header.Get "X-Original-Host") <;> rfl

theorem httpError_fresh_status (msg : String) (code : Nat) :
    (http.Error ResponseWriter.fresh msg code).status = some code := rfl

theorem httpError_fresh_tenant (msg : String) (code : Nat) :
    (http.Error ResponseWriter.fresh msg code).header.Values "X-Tenant-ID" = [] := by
  have h : (http.Error ResponseWriter.fresh msg code).header =
      ((Header.empty.Del "Content-Length").Set "Content-Type"
        "text/plain; charset=utf-8").Set "X-Content-Type-Options" "nosniff" := rfl
  rw [h]
  decide

theorem header_values_set (h : Header) (key value : String) :
    (h.Set key value).Values key = [value] := by
  simp [Header.Set, Header.Values, List.lookup]

theorem header_get_set (h : Header) (key value : String) :
    (h.Set key value).Get key = value := by
  simp [Header.Get, header_values_set]


/-! ## The Domain Resolver -/

/-- C1: the host used for the lookup is the first non-empty value among the
`X-Original-Host` header, the `X-Forwarded-Host` header and the request's `Host`, in this
order: the handler sends exactly one `GET`, for the key `"domain:"` followed by that
value, and none when all three are empty. -/
theorem tenantMapperHandler_host_priority (redisClient : RedisClient) (w : ResponseWriter)
    (r : Request) (s : World) :
    (tenantMapperHandler redisClient w r s).2.redisGets =
        s.redisGets ++
          (if firstNonEmptyHost r = "" then [] else ["domain:" ++ firstNonEmptyHost r])
    ∧ firstNonEmptyHost r =
        (if r.Header.Get "X-Original-Host" ≠ "" then r.Header.Get "X-Original-Host"
         else if r.Header.Get "X-Forwarded-Host" ≠ "" then r.Header.Get "X-Forwarded-Host"
         else r.Host) := by
  refine ⟨?_, firstNonEmptyHost_eq r⟩
  rw [tenantMapperHandler_eq]
  by_cases h : firstNonEmptyHost r = ""
  · simp [h, World.Printf]
  · simp only [h, if_false]
    cases redisClient ("domain:" ++ firstNonEmptyHost r) <;> simp [World.Printf]

/-- C1 on the request with the three distinct host values and on the requests obtained by
dropping the higher-priority headers. -/
theorem tenantMapperHandler_host_priority_witness :
    (resolve (storeOf []) reqABC).2.redisGets = ["domain:a.example.com"]
    ∧ (resolve (storeOf []) { reqABC with
        Header := ⟨[("X-Forwarded-Host", ["b.example.com"])]⟩ }).2.redisGets
        = ["domain:b.example.com"]
    ∧ (resolve (storeOf []) { reqABC with Header := ⟨[]⟩ }).2.redisGets
        = ["domain:c.example.com"] := by
  refine ⟨?_, ?_, ?_⟩
  · exact (tenantMapperHandler_host_priority (storeOf []) ResponseWriter.fresh reqABC
      ⟨[], []⟩).1.trans (by decide)
  · exact (tenantMapperHandler_host_priority (storeOf []) ResponseWriter.fresh _
      ⟨[], []⟩).1.trans (by decide)
  · exact (tenantMapperHandler_host_priority (storeOf []) ResponseWriter.fresh _
      ⟨[], []⟩).1.trans (by decide)

theorem resolve_ok (redisClient : RedisClient) (r : Request)
    (H T : String) (hsel : firstNonEmptyHost r = H) (hne : H ≠ "")
    (hT : redisClient ("domain:" ++ H) = RedisResult.ok T) :
    (resolve redisClient r).1.status = some 200
    ∧ (resolve redisClient r).1.body = ""
    ∧ (resolve redisClient r).1.header.Values "X-Tenant-ID" = [T]
    ∧ (resolve redisClient r).1.header.Get "X-Tenant-ID" = T
    ∧ (resolve redisClient r).2.redisGets = ["domain:" ++ H] := by
  subst hsel
  unfold resolve
  rw [tenantMapperHandler_eq]
  simp only [hne, if_false, hT]
  refine ⟨rfl, rfl, ?_, ?_, ?_⟩
  · exact header_values_set _ _ _
  · exact header_get_set _ _ _
  · simp [World.Printf]

/-- C2: when the selected host `H` is non-empty and the store answers the key
`"domain:" ++ H` with the value `T`, the response has status 200, an empty body and the
header `X-Tenant-ID` with the single value `T`, for every string `T`; the only key
sent to the store is `"domain:" ++ H`. -/
theorem tenantMapperHandler_resolved (redisClient : RedisClient) (r : Request)
    (H T : String) (hsel : firstNonEmptyHost r = H) (hne : H ≠ "")
    (hT : redisClient ("domain:" ++ H) = RedisResult.ok T) :
    (resolve redisClient r).1.status = some 200
    ∧ (resolve redisClient r).1.body = ""
    ∧ (resolve redisClient r).1.header.Values "X-Tenant-ID" = [T]
    ∧ (resolve redisClient r).1.header.Get "X-Tenant-ID" = T
    ∧ (resolve redisClient r).2.redisGets = ["domain:" ++ H] :=
  resolve_ok redisClient r H T hsel hne hT

/-- C2 at the host `shop.example.com` mapped to `tenant-42`, and at a host mapped to the
one-byte value `x`, which the propagator would reject. -/
theorem tenantMapperHandler_resolved_witness :
    ((resolve (storeOf [("domain:shop.example.com", "tenant-42")]) reqShop).1.status
        = some 200
      ∧ (resolve (storeOf [("domain:shop.example.com", "tenant-42")]) reqShop).1.body = ""
      ∧ (resolve (storeOf [("domain:shop.example.com", "tenant-42")])
          reqShop).1.header.Values "X-Tenant-ID" = ["tenant-42"]
      ∧ (resolve (storeOf [("domain:shop.example.com", "tenant-42")])
          reqShop).1.header.Get "X-Tenant-ID" = "tenant-42"
      ∧ (resolve (storeOf [("domain:shop.example.com", "tenant-42")]) reqShop).2.redisGets
          = ["domain:" ++ "shop.example.com"])
    ∧ (resolve (storeOf [("domain:shop.example.com", "x")]) reqShop).1.header.Values
        "X-Tenant-ID" = ["x"] :=
  ⟨tenantMapperHandler_resolved (storeOf [("domain:shop.example.com", "tenant-42")]) reqShop
      "shop.example.com" "tenant-42" (by decide) (by decide) (by decide),
    (tenantMapperHandler_resolved (storeOf [("domain:shop.example.com", "x")]) reqShop
      "shop.example.com" "x" (by decide) (by decide) (by decide)).2.2.1⟩


/-- C3: when the selected host `H` is non-empty and the store reports the key
`"domain:" ++ H` absent, the response has status 401 and no `X-Tenant-ID` header, and
the only key sent to the store is that of `H`, whatever the store holds for other keys:
there is no second lookup for a lower-priority host value. -/
theorem tenantMapperHandler_not_found (redisClient : RedisClient) (r : Request)
    (H : String) (hsel : firstNonEmptyHost r = H) (hne : H ≠ "")
    (hnil : redisClient ("domain:" ++ H) = RedisResult.Nil) :
    (resolve redisClient r).1.status = some 401
    ∧ (resolve redisClient r).1.header.Values "X-Tenant-ID" = []
    ∧ (resolve redisClient r).2.redisGets = ["domain:" ++ H] := by
  subst hsel
  unfold resolve
  rw [tenantMapperHandler_eq]
  simp only [hne, if_false, hnil]
  refine ⟨rfl, httpError_fresh_tenant _ _, ?_⟩
  simp [World.Printf]

/-- C3 on the request with `X-Original-Host`, `X-Forwarded-Host` and `Host` set to three
distinct hosts of which only the second and the third are mapped. -/
theorem tenantMapperHandler_not_found_witness :
    firstNonEmptyHost reqABC = "a.example.com"
    ∧ storeOf [("domain:b.example.com", "tenant-b"), ("domain:c.example.com", "tenant-c")]
        ("domain:" ++ "b.example.com") = RedisResult.ok "tenant-b"
    ∧ storeOf [("domain:b.example.com", "tenant-b"), ("domain:c.example.com", "tenant-c")]
        ("domain:" ++ "c.example.com") = RedisResult.ok "tenant-c"
    ∧ (resolve (storeOf [("domain:b.example.com", "tenant-b"),
        ("domain:c.example.com", "tenant-c")]) reqABC).1.status = some 401
    ∧ (resolve (storeOf [("domain:b.example.com", "tenant-b"),
        ("domain:c.example.com", "tenant-c")]) reqABC).1.header.Values "X-Tenant-ID" = []
    ∧ (resolve (storeOf [("domain:b.example.com", "tenant-b"),
        ("domain:c.example.com", "tenant-c")]) reqABC).2.redisGets
        = ["domain:" ++ "a.example.com"] :=
  ⟨by decide, by decide, by decide,
    tenantMapperHandler_not_found
      (storeOf [("domain:b.example.com", "tenant-b"), ("domain:c.example.com", "tenant-c")])
      reqABC "a.example.com" (by decide) (by decide) (by decide)⟩

/-- C4: for a request with a non-empty selected host, the status is 500 exactly when the
lookup fails with an error other than key absence, 401 exactly when the lookup reports
the key absent, and 200 exactly when the lookup returns a value; in the two failure cases
the response has no `X-Tenant-ID` header. -/
theorem tenantMapperHandler_error_classes (redisClient : RedisClient) (r : Request)
    (hne : firstNonEmptyHost r ≠ "") :
    ((resolve redisClient r).1.status = some 500 ↔
        ∃ e, redisClient ("domain:" ++ firstNonEmptyHost r) = RedisResult.err e)
    ∧ ((resolve redisClient r).1.status = some 401 ↔
        redisClient ("domain:" ++ firstNonEmptyHost r) = RedisResult.Nil)
    ∧ ((resolve redisClient r).1.status = some 200 ↔
        ∃ T, redisClient ("domain:" ++ firstNonEmptyHost r) = RedisResult.ok T)
    ∧ ((redisClient ("domain:" ++ firstNonEmptyHost r) = RedisResult.Nil
          ∨ ∃ e, redisClient ("domain:" ++ firstNonEmptyHost r) = RedisResult.err e) →
        (resolve redisClient r).1.header.Values "X-Tenant-ID" = []) := by
  unfold resolve
  rw [tenantMapperHandler_eq]
  simp only [hne, if_false]
  cases hres : redisClient ("domain:" ++ firstNonEmptyHost r) with
  | ok T =>
    refine ⟨?_, ?_, ?_, ?_⟩
    · simp [ResponseWriter.WriteHeader, ResponseWriter.fresh, StatusOK]
    · simp [ResponseWriter.WriteHeader, ResponseWriter.fresh, StatusOK]
    · simp [ResponseWriter.WriteHeader, ResponseWriter.fresh, StatusOK]
    · intro h
      rcases h with h | ⟨e, h⟩ <;> cases h
  | Nil =>
    refine ⟨?_, ?_, ?_, ?_⟩
    · simp [httpError_fresh_status, StatusUnauthorized]
    · simp [httpError_fresh_status, StatusUnauthorized]
    · simp [httpError_fresh_status, StatusUnauthorized]
    · intro _
      exact httpError_fresh_tenant _ _
  | err e =>
    refine ⟨?_, ?_, ?_, ?_⟩
    · simp [httpError_fresh_status, StatusInternalServerError]
    · simp [httpError_fresh_status, StatusInternalServerError]
    · simp [httpError_fresh_status, StatusInternalServerError]
    · intro _
      exact httpError_fresh_tenant _ _

/-- C4 on a store that is down (status 500, not 401) and on a reachable store without the
key (status 401, not 500). -/
theorem tenantMapperHandler_error_classes_witness :
    (resolve storeDown reqShop).1.status = some 500
    ∧ (resolve storeDown reqShop).1.header.Values "X-Tenant-ID" = []
    ∧ (resolve (storeOf []) reqShop).1.status = some 401
    ∧ (resolve (storeOf []) reqShop).1.header.Values "X-Tenant-ID" = [] :=
  ⟨(tenantMapperHandler_error_classes storeDown reqShop (by decide)).1.mpr ⟨_, rfl⟩,
    (tenantMapperHandler_error_classes storeDown reqShop (by decide)).2.2.2
      (Or.inr ⟨_, rfl⟩),
    (tenantMapperHandler_error_classes (storeOf []) reqShop (by decide)).2.1.mpr (by decide),
    (tenantMapperHandler_error_classes (storeOf []) reqShop (by decide)).2.2.2
      (Or.inl (by decide))⟩

/-- C5: the status is 400 exactly when the `X-Original-Host` header, the
`X-Forwarded-Host` header and the request's `Host` are all empty or absent; then the
response has no `X-Tenant-ID` header, no key is sent to the store, and the whole result
is the same for every store. -/
theorem tenantMapperHandler_missing_host (redisClient : RedisClient) (r : Request) :
    ((resolve redisClient r).1.status = some 400 ↔
        (r.Header.Get "X-Original-Host" = "" ∧ r.Header.Get "X-Forwarded-Host" = ""
          ∧ r.Host = ""))
    ∧ ((r.Header.Get "X-Original-Host" = "" ∧ r.Header.Get "X-Forwarded-Host" = ""
          ∧ r.Host = "") →
        (resolve redisClient r).1.header.Values "X-Tenant-ID" = []
        ∧ (resolve redisClient r).2.redisGets = []
        ∧ ∀ other : RedisClient, resolve other r = resolve redisClient r) := by
  have hall : (r.Header.Get "X-Original-Host" = "" ∧ r.Header.Get "X-Forwarded-Host" = ""
      ∧ r.Host = "") ↔ firstNonEmptyHost r = "" := by
    rw [firstNonEmptyHost_eq]
    by_cases h1 : r.Header.Get "X-Original-Host" = ""
    · by_cases h2 : r.Header.Get "X-Forwarded-Host" = ""
      · simp [h1, h2]
      · simp [h1, h2]
    · simp [h1]
  rw [hall]
  unfold resolve
  by_cases h : firstNonEmptyHost r = ""
  · refine ⟨?_, ?_⟩
    · rw [tenantMapperHandler_eq]
      simp [h, httpError_fresh_status, StatusBadRequest]
    · intro _
      refine ⟨?_, ?_, ?_⟩
      · rw [tenantMapperHandler_eq]
        simp only [h, if_true]
        exact httpError_fresh_tenant _ _
      · rw [tenantMapperHandler_eq]
        simp [h, World.Printf]
      · intro other
        rw [tenantMapperHandler_eq, tenantMapperHandler_eq]
        simp [h]
  · refine ⟨?_, fun h0 => absurd h0 h⟩
    rw [tenantMapperHandler_eq]
    simp only [h, if_false, iff_false]
    cases redisClient ("domain:" ++ firstNonEmptyHost r) with
    | ok T => simp [ResponseWriter.WriteHeader, ResponseWriter.fresh, StatusOK]
    | Nil => simp [httpError_fresh_status, StatusUnauthorized]
    | err e => simp [httpError_fresh_status, StatusInternalServerError]

/-- C5 on the request without any host value, with a store that is down and with a store
that maps the empty host. -/
theorem tenantMapperHandler_missing_host_witness :
    (resolve storeDown reqNoHost).1.status = some 400
    ∧ (resolve (storeOf [("domain:", "tenant-42")]) reqNoHost).1.status = some 400
    ∧ (resolve (storeOf [("domain:", "tenant-42")]) reqNoHost).1.header.Values
        "X-Tenant-ID" = []
    ∧ (resolve storeDown reqShop).1.status ≠ some 400 :=
  ⟨(tenantMapperHandler_missing_host storeDown reqNoHost).1.mpr (by decide),
    (tenantMapperHandler_missing_host (storeOf [("domain:", "tenant-42")])
      reqNoHost).1.mpr (by decide),
    ((tenantMapperHandler_missing_host (storeOf [("domain:", "tenant-42")])
      reqNoHost).2 (by decide)).1,
    fun h => absurd ((tenantMapperHandler_missing_host storeDown reqShop).1.mp h)
      (by decide)⟩


/-! ## The Tenant Context Propagator -/

theorem len_letters (n : Nat) : len (letters n) = n := by
  unfold len letters
  induction n with
  | zero => rfl
  | succ k ih =>
    rw [List.replicate_succ]
    show String.utf8ByteSize.go _ = _
    unfold String.utf8ByteSize.go
    have h1 : String.utf8ByteSize.go (List.replicate k (Char.ofNat 97)) = k := ih
    rw [h1]
    rfl

theorem get_ctxWithTenantHeader (v : String) :
    (ctxWithTenantHeader v).Request.Header.Get TenantIDHeader = v := by
  have h : CanonicalMIMEHeaderKey TenantIDHeader = "X-Tenant-Id" := by decide
  simp [ctxWithTenantHeader, Context.Request, Header.Get, Header.Values, h, List.lookup]

theorem len_empty : len "" = 0 := rfl

theorem getTenantID_withTenant (TenantIDKey : String) (c : Context) (v : String) :
    GetTenantIDEcho TenantIDKey (withTenant TenantIDKey c v) = v := by
  simp [GetTenantIDEcho, withTenant, Context.Get, Context.Set, Context.SetRequest,
    List.lookup]

theorem middleware_accepts {σ : Type} (TenantIDKey : String) (next : HandlerFunc σ)
    (c : Context) (s : σ) (h3 : 3 ≤ len (c.Request.Header.Get TenantIDHeader))
    (h128 : len (c.Request.Header.Get TenantIDHeader) ≤ 128) :
    TenancyMiddlewareEcho TenantIDKey next c s =
      next (withTenant TenantIDKey c (c.Request.Header.Get TenantIDHeader)) s := by
  have hne : c.Request.Header.Get TenantIDHeader ≠ "" := by
    intro h
    rw [h, len_empty] at h3
    omega
  have hr : ¬ (len (c.Request.Header.Get TenantIDHeader) < 3
      ∨ len (c.Request.Header.Get TenantIDHeader) > 128) := by omega
  unfold TenancyMiddlewareEcho
  simp only [hne, hr, if_false]
  rfl

theorem middleware_rejects_length {σ : Type} (TenantIDKey : String) (next : HandlerFunc σ)
    (c : Context) (s : σ) (hne : c.Request.Header.Get TenantIDHeader ≠ "")
    (hr : len (c.Request.Header.Get TenantIDHeader) < 3
      ∨ 128 < len (c.Request.Header.Get TenantIDHeader)) :
    TenancyMiddlewareEcho TenantIDKey next c s =
      (Outcome.returned none, { c with response := some ⟨400, invalidBody⟩ }, s) := by
  have hr2 : len (c.Request.Header.Get TenantIDHeader) < 3
      ∨ len (c.Request.Header.Get TenantIDHeader) > 128 := hr
  unfold TenancyMiddlewareEcho
  simp only [hne, hr2, if_false, if_true]
  rfl

theorem middleware_rejects_missing {σ : Type} (TenantIDKey : String) (next : HandlerFunc σ)
    (c : Context) (s : σ) (he : c.Request.Header.Get TenantIDHeader = "") :
    TenancyMiddlewareEcho TenantIDKey next c s =
      (Outcome.returned none, { c with response := some ⟨400, missingBody⟩ }, s) := by
  unfold TenancyMiddlewareEcho
  simp only [he, if_true]
  rfl

theorem probe_record {σ : Type} (next : HandlerFunc σ) (c : Context) (s : σ)
    (log : List Context) : (probe next c (s, log)).2.2.2 = log ++ [c] := rfl


/-- C6: for a non-empty `X-Tenant-ID` value `v`, the middleware answers with status 400
and the code `INVALID_TENANT_ID`, leaving the record of invocations of `next` as it was,
when `v` has fewer than 3 or more than 128 characters (Go `len`, the bytes of the header
value); otherwise it invokes `next`; and `next` stays uninvoked exactly in the first
case. -/
theorem TenancyMiddlewareEcho_length_check {σ : Type} (TenantIDKey : String)
    (next : HandlerFunc σ) (c : Context) (s : σ) (log : List Context)
    (hne : c.Request.Header.Get TenantIDHeader ≠ "") :
    ((len (c.Request.Header.Get TenantIDHeader) < 3
        ∨ 128 < len (c.Request.Header.Get TenantIDHeader)) →
      TenancyMiddlewareEcho TenantIDKey (probe next) c (s, log) =
        (Outcome.returned none,
          { c with response := some ⟨400,
              [("error", "Invalid tenant identifier"),
               ("message", "X-Tenant-ID must be between 3 and 128 characters"),
               ("code", "INVALID_TENANT_ID")]⟩ },
          (s, log)))
    ∧ (¬ (len (c.Request.Header.Get TenantIDHeader) < 3
        ∨ 128 < len (c.Request.Header.Get TenantIDHeader)) →
      TenancyMiddlewareEcho TenantIDKey (probe next) c (s, log) =
          probe next (withTenant TenantIDKey c (c.Request.Header.Get TenantIDHeader))
            (s, log)
        ∧ (TenancyMiddlewareEcho TenantIDKey (probe next) c (s, log)).2.2.2 =
          log ++ [withTenant TenantIDKey c (c.Request.Header.Get TenantIDHeader)])
    ∧ ((TenancyMiddlewareEcho TenantIDKey (probe next) c (s, log)).2.2.2 = log ↔
        (len (c.Request.Header.Get TenantIDHeader) < 3
          ∨ 128 < len (c.Request.Header.Get TenantIDHeader))) := by
  have hrej := middleware_rejects_length TenantIDKey (probe next) c (s, log) hne
  have hacc : ¬ (len (c.Request.Header.Get TenantIDHeader) < 3
        ∨ 128 < len (c.Request.Header.Get TenantIDHeader)) →
      TenancyMiddlewareEcho TenantIDKey (probe next) c (s, log) =
          probe next (withTenant TenantIDKey c (c.Request.Header.Get TenantIDHeader))
            (s, log) := fun h =>
    middleware_accepts TenantIDKey (probe next) c (s, log) (by omega) (by omega)
  refine ⟨hrej, fun h => ⟨hacc h, ?_⟩, ?_⟩
  · rw [hacc h, probe_record]
  · by_cases h : len (c.Request.Header.Get TenantIDHeader) < 3
        ∨ 128 < len (c.Request.Header.Get TenantIDHeader)
    · simp only [h, iff_true]
      rw [hrej h]
    · simp only [h, iff_false]
      rw [hacc h, probe_record]
      simp

/-- C6 at the boundary: identifiers of length 2 and 129 are rejected and `next` is not
invoked; identifiers of length 3 and 128 are accepted and `next` is invoked once. -/
theorem TenancyMiddlewareEcho_length_check_witness :
    (TenancyMiddlewareEcho "tenant_id" (probe okHandler) (ctxWithTenantHeader (letters 2))
        ((), [])).2.2.2 = []
    ∧ (TenancyMiddlewareEcho "tenant_id" (probe okHandler) (ctxWithTenantHeader (letters 129))
        ((), [])).2.2.2 = []
    ∧ (TenancyMiddlewareEcho "tenant_id" (probe okHandler) (ctxWithTenantHeader (letters 2))
        ((), [])).2.1.response = some ⟨400, invalidBody⟩
    ∧ (TenancyMiddlewareEcho "tenant_id" (probe okHandler) (ctxWithTenantHeader (letters 129))
        ((), [])).2.1.response = some ⟨400, invalidBody⟩
    ∧ (TenancyMiddlewareEcho "tenant_id" (probe okHandler) (ctxWithTenantHeader (letters 3))
        ((), [])).2.2.2.length = 1
    ∧ (TenancyMiddlewareEcho "tenant_id" (probe okHandler) (ctxWithTenantHeader (letters 128))
        ((), [])).2.2.2.length = 1 := by
  have hne : ∀ n, 0 < n →
      (ctxWithTenantHeader (letters n)).Request.Header.Get TenantIDHeader ≠ "" := by
    intro n hn h
    have h2 := len_letters n
    rw [get_ctxWithTenantHeader] at h
    rw [h, len_empty] at h2
    omega
  have hlen : ∀ n, len ((ctxWithTenantHeader (letters n)).Request.Header.Get TenantIDHeader)
      = n := by
    intro n
    rw [get_ctxWithTenantHeader, len_letters]
  have r2 := (TenancyMiddlewareEcho_length_check "tenant_id" okHandler
    (ctxWithTenantHeader (letters 2)) () [] (hne 2 (by omega))).1
      (by rw [hlen]; omega)
  have r129 := (TenancyMiddlewareEcho_length_check "tenant_id" okHandler
    (ctxWithTenantHeader (letters 129)) () [] (hne 129 (by omega))).1
      (by rw [hlen]; omega)
  have a3 := ((TenancyMiddlewareEcho_length_check "tenant_id" okHandler
    (ctxWithTenantHeader (letters 3)) () [] (hne 3 (by omega))).2.1
      (by rw [hlen]; omega)).2
  have a128 := ((TenancyMiddlewareEcho_length_check "tenant_id" okHandler
    (ctxWithTenantHeader (letters 128)) () [] (hne 128 (by omega))).2.1
      (by rw [hlen]; omega)).2
  refine ⟨?_, ?_, ?_, ?_, ?_, ?_⟩
  · rw [r2]
  · rw [r129]
  · rw [r2]; rfl
  · rw [r129]; rfl
  · rw [a3]; rfl
  · rw [a128]; rfl

/-- C7: when the `X-Tenant-ID` header is absent or empty, for every `next` the middleware
answers with status 400 and the JSON fields `error`, `message` and
`code = TENANT_ID_REQUIRED`, returns a `nil` error, does not invoke `next` (the record of
invocations and the world are unchanged, and the result is the same for every `next`),
and leaves the store of the context and the request, with its context values, as they
were. -/
theorem TenancyMiddlewareEcho_missing_header {σ : Type} (TenantIDKey : String)
    (next : HandlerFunc σ) (c : Context) (s : σ) (log : List Context)
    (he : c.Request.Header.Get TenantIDHeader = "") :
    TenancyMiddlewareEcho TenantIDKey (probe next) c (s, log) =
        (Outcome.returned none,
          { c with response := some ⟨400,
              [("error", "Missing tenant identifier"),
               ("message", "X-Tenant-ID header is required for all tenant operations"),
               ("code", "TENANT_ID_REQUIRED")]⟩ },
          (s, log))
    ∧ (TenancyMiddlewareEcho TenantIDKey (probe next) c (s, log)).2.2.2 = log
    ∧ (TenancyMiddlewareEcho TenantIDKey (probe next) c (s, log)).2.1.store = c.store
    ∧ (TenancyMiddlewareEcho TenantIDKey (probe next) c (s, log)).2.1.request = c.request
    ∧ GetTenantIDEcho TenantIDKey
        (TenancyMiddlewareEcho TenantIDKey (probe next) c (s, log)).2.1 =
        GetTenantIDEcho TenantIDKey c
    ∧ (∀ other : HandlerFunc σ,
        TenancyMiddlewareEcho TenantIDKey other c s =
          (Outcome.returned none, { c with response := some ⟨400, missingBody⟩ }, s)) := by
  have h := middleware_rejects_missing TenantIDKey (probe next) c (s, log) he
  refine ⟨h, ?_, ?_, ?_, ?_, ?_⟩
  · rw [h]
  · rw [h]
  · rw [h]
  · rw [h]; rfl
  · intro other
    exact middleware_rejects_missing TenantIDKey other c s he

/-- C7 on a request without the header and on a request whose header is present with an
empty value. -/
theorem TenancyMiddlewareEcho_missing_header_witness :
    ctxNoHeader.Request.Header.Get TenantIDHeader = ""
    ∧ (ctxWithTenantHeader "").Request.Header.Get TenantIDHeader = ""
    ∧ (TenancyMiddlewareEcho "tenant_id" (probe okHandler) ctxNoHeader ((), [])).2.2.2 = []
    ∧ (TenancyMiddlewareEcho "tenant_id" (probe okHandler) (ctxWithTenantHeader "")
        ((), [])).2.2.2 = []
    ∧ GetTenantIDEcho "tenant_id"
        (TenancyMiddlewareEcho "tenant_id" (probe okHandler) ctxNoHeader ((), [])).2.1 = "" :=
  ⟨by decide, by decide,
    (TenancyMiddlewareEcho_missing_header "tenant_id" okHandler ctxNoHeader () []
      (by decide)).2.1,
    (TenancyMiddlewareEcho_missing_header "tenant_id" okHandler (ctxWithTenantHeader "")
      () [] (by decide)).2.1,
    (TenancyMiddlewareEcho_missing_header "tenant_id" okHandler ctxNoHeader () []
      (by decide)).2.2.2.2.1.trans (by decide)⟩


/-- C8: when the `X-Tenant-ID` value `v` passes validation (length within [3,128]), for
every `next` the result of the middleware is the result of `next` on the context that
holds `v`, unmodified; `next` is invoked exactly once, on that context; on it
`GetTenantIDEcho` returns exactly `v`, of length within [3,128]; and on a scope in which
nothing is stored under the key `GetTenantIDEcho` returns the absent signal `""`. -/
theorem TenancyMiddlewareEcho_valid {σ : Type} (TenantIDKey : String)
    (next : HandlerFunc σ) (c : Context) (s : σ) (log : List Context)
    (h3 : 3 ≤ len (c.Request.Header.Get TenantIDHeader))
    (h128 : len (c.Request.Header.Get TenantIDHeader) ≤ 128) :
    TenancyMiddlewareEcho TenantIDKey next c s =
        next (withTenant TenantIDKey c (c.Request.Header.Get TenantIDHeader)) s
    ∧ (TenancyMiddlewareEcho TenantIDKey (probe next) c (s, log)).2.2.2 =
        log ++ [withTenant TenantIDKey c (c.Request.Header.Get TenantIDHeader)]
    ∧ GetTenantIDEcho TenantIDKey
        (withTenant TenantIDKey c (c.Request.Header.Get TenantIDHeader)) =
        c.Request.Header.Get TenantIDHeader
    ∧ 3 ≤ len (GetTenantIDEcho TenantIDKey
        (withTenant TenantIDKey c (c.Request.Header.Get TenantIDHeader)))
    ∧ len (GetTenantIDEcho TenantIDKey
        (withTenant TenantIDKey c (c.Request.Header.Get TenantIDHeader))) ≤ 128
    ∧ (∀ c0 : Context, c0.store.lookup TenantIDKey = none →
        GetTenantIDEcho TenantIDKey c0 = "") := by
  refine ⟨middleware_accepts TenantIDKey next c s h3 h128, ?_,
    getTenantID_withTenant _ _ _, ?_, ?_, ?_⟩
  · rw [middleware_accepts TenantIDKey (probe next) c (s, log) h3 h128, probe_record]
  · rw [getTenantID_withTenant]; exact h3
  · rw [getTenantID_withTenant]; exact h128
  · intro c0 h0
    simp [GetTenantIDEcho, Context.Get, h0]

/-- C8 on a request with `X-Tenant-ID: tenant-42`: `next` is invoked once and reads
`tenant-42`; on a context with an empty store the accessor returns `""`. -/
theorem TenancyMiddlewareEcho_valid_witness :
    (TenancyMiddlewareEcho "tenant_id" (probe okHandler) (ctxWithTenantHeader "tenant-42")
        ((), [])).2.2.2 = [withTenant "tenant_id" (ctxWithTenantHeader "tenant-42")
          ((ctxWithTenantHeader "tenant-42").Request.Header.Get TenantIDHeader)]
    ∧ GetTenantIDEcho "tenant_id" (withTenant "tenant_id" (ctxWithTenantHeader "tenant-42")
        ((ctxWithTenantHeader "tenant-42").Request.Header.Get TenantIDHeader)) = "tenant-42"
    ∧ GetTenantIDEcho "tenant_id" ctxNoHeader = "" :=
  ⟨(TenancyMiddlewareEcho_valid "tenant_id" okHandler (ctxWithTenantHeader "tenant-42") ()
      [] (by decide) (by decide)).2.1,
    (TenancyMiddlewareEcho_valid "tenant_id" okHandler (ctxWithTenantHeader "tenant-42") ()
      [] (by decide) (by decide)).2.2.1.trans (by decide),
    (TenancyMiddlewareEcho_valid "tenant_id" okHandler (ctxWithTenantHeader "tenant-42") ()
      [] (by decide) (by decide)).2.2.2.2.2 ctxNoHeader (by decide)⟩

/-- C9: end to end.  When the store answers `"domain:" ++ H` with `T`, `T` has length
within [3,128], and a request with the non-empty `X-Original-Host` value `H` is resolved
by `tenantMapperHandler`, then on every request onto which the proxy copies the resolved
`X-Tenant-ID` header the middleware invokes the final handler exactly once, on a context
on which `GetTenantIDEcho` and `MustGetTenantIDEcho` return exactly `T`. -/
theorem resolver_then_propagator {σ : Type} (redisClient : RedisClient) (r : Request)
    (H T : String) (TenantIDKey : String) (next : HandlerFunc σ) (c : Context) (s : σ)
    (log : List Context)
    (hH : r.Header.Get "X-Original-Host" = H) (hne : H ≠ "")
    (hT : redisClient ("domain:" ++ H) = RedisResult.ok T)
    (h3 : 3 ≤ len T) (h128 : len T ≤ 128) :
    (TenancyMiddlewareEcho TenantIDKey (probe next)
        (c.SetRequest (proxyCopyTenantHeader (resolve redisClient r).1 c.Request))
        (s, log)).2.2.2 =
      log ++ [withTenant TenantIDKey
        (c.SetRequest (proxyCopyTenantHeader (resolve redisClient r).1 c.Request)) T]
    ∧ GetTenantIDEcho TenantIDKey (withTenant TenantIDKey
        (c.SetRequest (proxyCopyTenantHeader (resolve redisClient r).1 c.Request)) T) = T
    ∧ MustGetTenantIDEcho TenantIDKey (withTenant TenantIDKey
        (c.SetRequest (proxyCopyTenantHeader (resolve redisClient r).1 c.Request)) T)
        = GoResult.ret T := by
  have hsel : firstNonEmptyHost r = H := by
    rw [firstNonEmptyHost_eq, hH]
    simp [hne]
  have hres := (resolve_ok redisClient r H T hsel hne hT).2.2.2.1
  have hget : (c.SetRequest (proxyCopyTenantHeader (resolve redisClient r).1
      c.Request)).Request.Header.Get TenantIDHeader = T := by
    show (c.Request.Header.Set "X-Tenant-ID"
      ((resolve redisClient r).1.header.Get "X-Tenant-ID")).Get "X-Tenant-ID" = T
    rw [header_get_set, hres]
  have hTne : T ≠ "" := by
    intro h
    rw [h, len_empty] at h3
    omega
  refine ⟨?_, getTenantID_withTenant _ _ _, ?_⟩
  · have h := middleware_accepts TenantIDKey (probe next)
      (c.SetRequest (proxyCopyTenantHeader (resolve redisClient r).1 c.Request)) (s, log)
      (by rw [hget]; exact h3) (by rw [hget]; exact h128)
    rw [hget] at h
    rw [h, probe_record]
  · unfold MustGetTenantIDEcho
    simp only [getTenantID_withTenant, hTne, if_false]

/-- C9 at `H = shop.example.com` and `T = tenant-42`. -/
theorem resolver_then_propagator_witness :
    (TenancyMiddlewareEcho "tenant_id" (probe okHandler)
        (ctxNoHeader.SetRequest (proxyCopyTenantHeader
          (resolve (storeOf [("domain:shop.example.com", "tenant-42")]) reqShop).1
          ctxNoHeader.Request))
        ((), [])).2.2.2.map (GetTenantIDEcho "tenant_id") = ["tenant-42"] := by
  have h := resolver_then_propagator
    (storeOf [("domain:shop.example.com", "tenant-42")]) reqShop "shop.example.com"
    "tenant-42" "tenant_id" okHandler ctxNoHeader () []
    (by decide) (by decide) (by decide) (by decide) (by decide)
  rw [h.1]
  simp only [List.nil_append, List.map_cons, List.map_nil, h.2.1]


/-- C10 fails as stated: on a scope without an identifier `MustGetTenantIDEcho` does not
end in a result that the handler can return as the error of this request; it panics, and
a handler that calls it without a `recover` ends in that panic instead of returning. -/
theorem MustGetTenantIDEcho_absent_panics :
    MustGetTenantIDEcho "tenant_id" ctxNoHeader =
      GoResult.panic
        "tenant ID not found in context - ensure TenancyMiddlewareEcho is applied"
    ∧ handlerWithMustGet "tenant_id" (fun _ => okHandler) ctxNoHeader () =
      (Outcome.panicked
        "tenant ID not found in context - ensure TenancyMiddlewareEcho is applied",
        ctxNoHeader, ())
    ∧ ¬ ∃ err, (handlerWithMustGet "tenant_id" (fun _ => okHandler) ctxNoHeader ()).1 =
      Outcome.returned err := by
  refine ⟨by decide, by decide, ?_⟩
  rintro ⟨err, h⟩
  have h2 : (handlerWithMustGet "tenant_id" (fun _ => okHandler) ctxNoHeader ()).1 =
      Outcome.panicked
        "tenant ID not found in context - ensure TenancyMiddlewareEcho is applied" := by
    decide
  rw [h2] at h
  cases h

/-- C10, amended: `MustGetTenantIDEcho` returns the stored identifier whenever a non-empty
string is stored under the key, and fails exactly when the identifier is absent
(`GetTenantIDEcho` returns `""`); the failure is a Go panic with a fixed message, which a
handler calling the accessor without a `recover` passes on as its own outcome, leaving the
context and the world as they were. -/
theorem MustGetTenantIDEcho_result (σ : Type) (TenantIDKey : String) (c : Context) :
    (∀ tid : String, c.Get TenantIDKey = Value.str tid → tid ≠ "" →
        MustGetTenantIDEcho TenantIDKey c = GoResult.ret tid)
    ∧ (GetTenantIDEcho TenantIDKey c ≠ "" →
        MustGetTenantIDEcho TenantIDKey c = GoResult.ret (GetTenantIDEcho TenantIDKey c))
    ∧ ((∃ v, MustGetTenantIDEcho TenantIDKey c = GoResult.panic v) ↔
        GetTenantIDEcho TenantIDKey c = "")
    ∧ (GetTenantIDEcho TenantIDKey c = "" →
        MustGetTenantIDEcho TenantIDKey c = GoResult.panic
          "tenant ID not found in context - ensure TenancyMiddlewareEcho is applied")
    ∧ (∀ (k : String → HandlerFunc σ) (s : σ), GetTenantIDEcho TenantIDKey c = "" →
        handlerWithMustGet TenantIDKey k c s =
          (Outcome.panicked
            "tenant ID not found in context - ensure TenancyMiddlewareEcho is applied",
            c, s)) := by
  refine ⟨?_, ?_, ?_, ?_, ?_⟩
  · intro tid hget hne
    have hg : GetTenantIDEcho TenantIDKey c = tid := by
      simp [GetTenantIDEcho, hget]
    simp [MustGetTenantIDEcho, hg, hne]
  · intro hne
    simp [MustGetTenantIDEcho, hne]
  · by_cases h : GetTenantIDEcho TenantIDKey c = ""
    · simp [MustGetTenantIDEcho, h]
    · simp [MustGetTenantIDEcho, h]
  · intro h
    simp [MustGetTenantIDEcho, h]
  · intro k s h
    simp [handlerWithMustGet, MustGetTenantIDEcho, h]

/-- C10, amended, on the context the middleware builds for `tenant-42` (the accessor
returns it) and on a context with an empty store (the accessor panics). -/
theorem MustGetTenantIDEcho_result_witness :
    MustGetTenantIDEcho "tenant_id"
        (withTenant "tenant_id" (ctxWithTenantHeader "tenant-42") "tenant-42")
      = GoResult.ret "tenant-42"
    ∧ ∃ v, MustGetTenantIDEcho "tenant_id" ctxNoHeader = GoResult.panic v :=
  ⟨(MustGetTenantIDEcho_result Unit "tenant_id"
      (withTenant "tenant_id" (ctxWithTenantHeader "tenant-42") "tenant-42")).1
      "tenant-42" (by decide) (by decide),
    (MustGetTenantIDEcho_result Unit "tenant_id" ctxNoHeader).2.2.1.mpr (by decide)⟩

end TenantInfra
